import Mathlib

/-!
Shallow embedding of `src/load_tweets.py` (twitter_postgres record loader).

Python strings are modelled as lists of characters (`PStr`), JSON numbers
used as identifiers as `Nat`, counts as `Int`, and the relational store as
a record of tables (`DB`).  Fallible Python code (uncaught exceptions)
returns `Except PyErr`.
-/

namespace LoadTweets

/-- Python strings, modelled as lists of characters. -/
abbrev PStr := List Char

/-- Python exceptions that can escape the modelled code paths
(`integrityError` is a database unique-constraint violation surfacing
through the driver). -/
inductive PyErr where
  | typeError
  | keyError
  | indexError
  | nameError
  | integrityError
  deriving DecidableEq, Repr

/-- Python `s.replace(old, '')` for a single-character pattern `old`:
every occurrence of `old` is deleted from `s`. -/
def replaceCharEmpty (old : Char) : PStr → PStr
  | [] => []
  | c :: cs => if c = old then replaceCharEmpty old cs else c :: replaceCharEmpty old cs

/-- `remove_nulls` from load_tweets.py: `None` passes through, otherwise the
null character is removed from the string via `s.replace(chr 0, '')`. -/
def remove_nulls : Option PStr → Option PStr
  | none => none
  | some s => some (replaceCharEmpty (Char.ofNat 0) s)

theorem replaceCharEmpty_not_mem (old : Char) (s : PStr) :
    old ∉ replaceCharEmpty old s := by
  induction s with
  | nil => simp [replaceCharEmpty]
  | cons c cs ih =>
    simp only [replaceCharEmpty]
    by_cases h : c = old
    · simpa [h] using ih
    · simp only [if_neg h, List.mem_cons]
      rintro (rfl | hm)
      · exact h rfl
      · exact ih hm

theorem replaceCharEmpty_of_not_mem (old : Char) (s : PStr) (h : old ∉ s) :
    replaceCharEmpty old s = s := by
  induction s with
  | nil => rfl
  | cons c cs ih =>
    simp only [List.mem_cons, not_or] at h
    have hc : ¬ c = old := fun hc => h.1 hc.symm
    simp only [replaceCharEmpty, ih h.2, if_neg hc]

theorem replaceCharEmpty_idem (old : Char) (s : PStr) :
    replaceCharEmpty old (replaceCharEmpty old s) = replaceCharEmpty old s :=
  replaceCharEmpty_of_not_mem old _ (replaceCharEmpty_not_mem old s)

/-! ## Input records (decoded JSON tweet objects)

The structures below mirror the JSON fields that `insert_tweet` reads.
An `Option` field is `none` when the JSON value is `null` (or, for the
fields accessed with `.get(..., None)` or guarded by `try/except KeyError`,
when the key is absent). -/

/-- The `geo` object of a tweet (`tweet['geo']`). -/
structure Geo where
  coordinates : List Int
  deriving DecidableEq, Repr

/-- The `bounding_box` object of a place. -/
structure BoundingBox where
  coordinates : List (List (Int × Int))
  deriving DecidableEq, Repr

/-- The `place` object of a tweet (`tweet['place']`);
`bounding_box = none` models the key being absent. -/
structure Place where
  bounding_box : Option BoundingBox
  country_code : PStr
  full_name : PStr
  deriving DecidableEq, Repr

/-- A url entity (`tweet['entities']['urls'][i]`). -/
structure UrlEntity where
  expanded_url : PStr
  deriving DecidableEq, Repr

/-- A user-mention entity (`tweet['entities']['user_mentions'][i]`). -/
structure MentionEntity where
  id : Nat
  screen_name : PStr
  name : PStr
  deriving DecidableEq, Repr

/-- A hashtag or cashtag entity. -/
structure TagEntity where
  text : PStr
  deriving DecidableEq, Repr

/-- A media entity (`...['extended_entities']['media'][i]`). -/
structure MediaEntity where
  media_url : PStr
  type : PStr
  deriving DecidableEq, Repr

/-- The `entities` object of a tweet. -/
structure Entities where
  urls : List UrlEntity
  user_mentions : List MentionEntity
  hashtags : List TagEntity
  symbols : List TagEntity
  deriving DecidableEq, Repr

/-- The `extended_entities` object of a tweet. -/
structure ExtendedEntities where
  media : List MediaEntity
  deriving DecidableEq, Repr

/-- The `extended_tweet` object (`none` models the key being absent). -/
structure ExtendedTweet where
  full_text : PStr
  entities : Entities
  extended_entities : Option ExtendedEntities
  deriving DecidableEq, Repr

/-- The `user` object of a tweet (`tweet['user']`). -/
structure TUser where
  id : Nat
  url : Option PStr := none
  created_at : PStr := []
  screen_name : Option PStr := none
  name : Option PStr := none
  location : Option PStr := none
  description : Option PStr := none
  protected_flag : Option Bool := none
  verified : Option Bool := none
  friends_count : Option Int := none
  listed_count : Option Int := none
  favourites_count : Option Int := none
  statuses_count : Option Int := none
  withheld_in_countries : Option (List PStr) := none
  geo_enabled : Bool := false
  deriving DecidableEq, Repr

/-- A decoded tweet record, as read by `insert_tweet`. -/
structure Tweet where
  id : Nat
  user : TUser
  created_at : PStr := []
  geo : Option Geo := none
  place : Option Place := none
  extended_tweet : Option ExtendedTweet := none
  text : PStr := []
  in_reply_to_status_id : Option Nat := none
  in_reply_to_user_id : Option Nat := none
  quoted_status_id : Option Nat := none
  retweet_count : Option Int := none
  quote_count : Option Int := none
  favorite_count : Option Int := none
  withheld_copyright : Option Bool := none
  withheld_in_countries : Option (List PStr) := none
  lang : Option PStr := none
  source : Option PStr := none
  entities : Entities := { urls := [], user_mentions := [], hashtags := [], symbols := [] }
  extended_entities : Option ExtendedEntities := none
  deriving DecidableEq, Repr

/-! ## The relational store

The SQL schema itself is not under `src/`; its constraints are modelled
from the spec (see the doc comments below). -/

/-- A row of the `users` table.  Columns other than the primary key are
nullable; an "unhydrated" row has every nullable column `NULL`. -/
structure UserRow where
  id_users : Nat
  created_at : Option PStr := none
  updated_at : Option PStr := none
  screen_name : Option PStr := none
  name : Option PStr := none
  location : Option PStr := none
  id_urls : Option Nat := none
  description : Option PStr := none
  protected_flag : Option Bool := none
  verified : Option Bool := none
  friends_count : Option Int := none
  listed_count : Option Int := none
  favourites_count : Option Int := none
  statuses_count : Option Int := none
  withheld_in_countries : Option (List PStr) := none
  deriving DecidableEq, Repr

/-- A row of the `tweets` table.  The `geo` column stores the well-known
text produced by `ST_GeomFromText(geo_str || '(' || geo_coords || ')')`,
which is `NULL` whenever either operand is `NULL`. -/
structure TweetRow where
  id_tweets : Nat
  id_users : Nat
  created_at : PStr
  in_reply_to_status_id : Option Nat
  in_reply_to_user_id : Option Nat
  quoted_status_id : Option Nat
  geo : Option PStr
  retweet_count : Option Int
  quote_count : Option Int
  favorite_count : Option Int
  withheld_copyright : Option Bool
  withheld_in_countries : Option (List PStr)
  place_name : Option PStr
  country_code : Option PStr
  state_code : Option PStr
  lang : Option PStr
  text : Option PStr
  source : Option PStr
  deriving DecidableEq, Repr

/-- Modelled from the spec: the relational store with tables
`urls`, `users`, `tweets`, `tweet_urls`, `tweet_mentions`, `tweet_tags`,
`tweet_media`.  The schema file is not part of `src/`; per the spec,
`urls.url` is globally unique (with serial ids, modelled by `next_id_urls`),
`users.id_users` and `tweets.id_tweets` are primary keys, and the join
tables have a uniqueness constraint on the inserted column tuple, so that
`ON CONFLICT DO NOTHING` is a no-op exactly when the row is already
present.  The spec's further restriction that the store cannot represent
the null character in text values is not re-checked by these table lists;
it is modelled separately, as the predicate `storeRejects` on bound
parameters, and rows reaching the lists are understood to be rows the
store accepted. -/
structure DB where
  urls : List (Nat × PStr)
  next_id_urls : Nat
  users : List UserRow
  tweets : List TweetRow
  tweet_urls : List (Nat × Nat)
  tweet_mentions : List (Nat × Nat)
  tweet_tags : List (Nat × Option PStr)
  tweet_media : List (Nat × Nat × PStr)
  deriving DecidableEq, Repr

/-- The empty store. -/
def DB.empty : DB :=
  { urls := [], next_id_urls := 0, users := [], tweets := [],
    tweet_urls := [], tweet_mentions := [], tweet_tags := [], tweet_media := [] }

/-- `get_id_urls` from load_tweets.py.  The first statement is
`INSERT INTO urls (url) VALUES (:url) ON CONFLICT DO NOTHING RETURNING id_urls`:
when the url is not yet present it inserts a fresh row and returns its id;
on conflict it returns no row (`res is None`) and a follow-up
`SELECT id_urls FROM urls WHERE url = :url` is run.  The final `res[0]`
subscript crashes when even the select returns no row, modelled by `none`. -/
def get_id_urls (url : PStr) (db : DB) : Option (Nat × DB) :=
  if db.urls.any (fun r => r.2 = url) then
    -- conflict: the insert returns no row; fall back to the select
    match db.urls.find? (fun r => r.2 = url) with
    | some r => some (r.1, db)
    | none => none
  else
    some (db.next_id_urls,
      { db with urls := db.urls ++ [(db.next_id_urls, url)],
                next_id_urls := db.next_id_urls + 1 })

/-! ## Table-level insert statements used by `insert_tweet` -/

/-- `INSERT INTO users (...) VALUES (...) ON CONFLICT (id_users) DO NOTHING`. -/
def insertUserIgnore (row : UserRow) (db : DB) : DB :=
  if db.users.any (fun r => r.id_users = row.id_users) then db
  else { db with users := db.users ++ [row] }

/-- `INSERT INTO users (id_users) VALUES (:in_reply_to_user_id)` with no
`ON CONFLICT` clause: a duplicate primary key raises. -/
def insertUserPlain (row : UserRow) (db : DB) : Except PyErr DB :=
  if db.users.any (fun r => r.id_users = row.id_users) then .error .integrityError
  else .ok { db with users := db.users ++ [row] }

/-- `INSERT INTO tweets (...) VALUES (...) ON CONFLICT DO NOTHING`. -/
def insertTweetIgnore (row : TweetRow) (db : DB) : DB :=
  if db.tweets.any (fun r => r.id_tweets = row.id_tweets) then db
  else { db with tweets := db.tweets ++ [row] }

/-- `INSERT INTO tweet_urls (id_tweets, id_urls) VALUES (...) ON CONFLICT DO NOTHING`. -/
def insertTweetUrlIgnore (tid iu : Nat) (db : DB) : DB :=
  if db.tweet_urls.any (fun r => r = (tid, iu)) then db
  else { db with tweet_urls := db.tweet_urls ++ [(tid, iu)] }

/-- `INSERT INTO tweet_mentions (id_tweets, id_users) VALUES (...) ON CONFLICT DO NOTHING`. -/
def insertTweetMentionIgnore (tid uid : Nat) (db : DB) : DB :=
  if db.tweet_mentions.any (fun r => r = (tid, uid)) then db
  else { db with tweet_mentions := db.tweet_mentions ++ [(tid, uid)] }

/-- `INSERT INTO tweet_tags (id_tweets, tag) VALUES (...) ON CONFLICT DO NOTHING`. -/
def insertTweetTagIgnore (tid : Nat) (tag : Option PStr) (db : DB) : DB :=
  if db.tweet_tags.any (fun r => r = (tid, tag)) then db
  else { db with tweet_tags := db.tweet_tags ++ [(tid, tag)] }

/-- `INSERT INTO tweet_media (id_tweets, id_urls, type) VALUES (...) ON CONFLICT DO NOTHING`. -/
def insertTweetMediaIgnore (tid iu : Nat) (mtype : PStr) (db : DB) : DB :=
  if db.tweet_media.any (fun r => r = (tid, iu, mtype)) then db
  else { db with tweet_media := db.tweet_media ++ [(tid, iu, mtype)] }

/-! ## Field derivations performed by `insert_tweet` -/

/-- The parameter record bound for the author `INSERT INTO users`:
every free-text field is passed through `remove_nulls`. -/
def authorRow (t : Tweet) (user_id_urls : Option Nat) : UserRow :=
  { id_users := t.user.id,
    created_at := some t.user.created_at,
    updated_at := some t.created_at,
    screen_name := remove_nulls t.user.screen_name,
    name := remove_nulls t.user.name,
    location := remove_nulls t.user.location,
    id_urls := user_id_urls,
    description := remove_nulls t.user.description,
    protected_flag := t.user.protected_flag,
    verified := t.user.verified,
    friends_count := t.user.friends_count,
    listed_count := t.user.listed_count,
    favourites_count := t.user.favourites_count,
    statuses_count := t.user.statuses_count,
    withheld_in_countries := t.user.withheld_in_countries }

/-- `str(point[0]) + ' ' + str(point[1])` for one coordinate pair. -/
def strPoint (p : Int × Int) : PStr := (toString p.1).toList ++ ' ' :: (toString p.2).toList

/-- The inner `for j, point in enumerate(poly)` loop: every point rendered
and followed by a comma. -/
def ringBody : List (Int × Int) → PStr
  | [] => []
  | p :: ps => strPoint p ++ ',' :: ringBody ps

/-- One bounding-box ring, as built by `insert_tweet`: the inner loop's
output, then the first point repeated to close the ring, in parentheses.
`poly[0]` on an empty ring raises `IndexError`. -/
def mkRing (poly : List (Int × Int)) : Except PyErr PStr :=
  match poly with
  | [] => .error .indexError
  | p0 :: _ => .ok ('(' :: (ringBody poly ++ strPoint p0 ++ [')']))

/-- The outer `for i, poly in enumerate(...)` loop over the rings of a
bounding box: a comma before every ring except the first. -/
def multiPolygonBody : List (List (Int × Int)) → Except PyErr PStr
  | [] => .ok []
  | poly :: rest =>
    match mkRing poly, multiPolygonBody rest with
    | .ok r, .ok rs => .ok (r ++ (if rest = [] then [] else [','] ) ++ rs)
    | .error e, _ => .error e
    | _, .error e => .error e

/-- The `geo_coords` string built for a place bounding box: the rings,
comma-separated, inside one outer pair of parentheses. -/
def mkMultiPolygonCoords (polys : List (List (Int × Int))) : Except PyErr PStr :=
  match multiPolygonBody polys with
  | .ok body => .ok ('(' :: (body ++ [')']))
  | .error e => .error e

/-- The geometry derivation block of `insert_tweet` (`geo_str`, `geo_coords`).
`tweet['geo']` being `null` raises `TypeError` (caught); then
`tweet['place']` being `null` raises `TypeError` inside the inner `try`,
which catches only `KeyError`, so it propagates; a place without a
`bounding_box` key raises `KeyError` (caught): if the author is
geo-enabled both variables are set to `None`, otherwise `geo_str` is never
assigned and evaluating it for the insert raises `NameError`. -/
def deriveGeo (t : Tweet) : Except PyErr (Option PStr × Option PStr) :=
  match t.geo with
  | some g =>
    match g.coordinates with
    | x :: y :: _ =>
      .ok (some ("POINT".toList), some ((toString x).toList ++ ' ' :: (toString y).toList))
    | _ => .error .indexError
  | none =>
    match t.place with
    | none => .error .typeError
    | some p =>
      match p.bounding_box with
      | some bb =>
        match mkMultiPolygonCoords bb.coordinates with
        | .ok s => .ok (some ("MULTIPOLYGON".toList), some s)
        | .error e => .error e
      | none =>
        if t.user.geo_enabled then .ok (none, none)
        else .error .nameError

/-- `ST_GeomFromText(:geo_str || '(' || :geo_coords || ')')`: SQL `||`
yields `NULL` when either operand is `NULL`. -/
def geoColumn : Option PStr → Option PStr → Option PStr
  | some gs, some gc => some (gs ++ '(' :: (gc ++ [')']))
  | _, _ => none

/-- Display text: `tweet['extended_tweet']['full_text']`, falling back to
`tweet['text']` on any exception. -/
def deriveText (t : Tweet) : PStr :=
  match t.extended_tweet with
  | some et => et.full_text
  | none => t.text

/-- Python `str.lower()` (per-character). -/
def pyLower (s : PStr) : PStr := s.map Char.toLower

/-- The characters stripped by Python `str.strip()`. -/
def pyIsSpace (c : Char) : Bool :=
  c = ' ' || c = '\t' || c = '\n' || c = '\r' || c = Char.ofNat 11 || c = Char.ofNat 12

/-- Python `str.strip()`: whitespace removed from both ends. -/
def pyStrip (s : PStr) : PStr :=
  ((s.dropWhile pyIsSpace).reverse.dropWhile pyIsSpace).reverse

/-- `tweet['place']['country_code'].lower()`, with the `TypeError` from a
`null` place caught and mapped to `None`. -/
def deriveCountryCode (t : Tweet) : Option PStr :=
  match t.place with
  | none => none
  | some p => some (pyLower p.country_code)

/-- Python `str.split(sep)` for a single-character separator: every
occurrence of the separator starts a new segment, and the result is never
the empty list. -/
def pySplit (sep : Char) : PStr → List PStr
  | [] => [[]]
  | c :: cs =>
    if c = sep then [] :: pySplit sep cs
    else
      match pySplit sep cs with
      | [] => [[c]]
      | r :: rs => (c :: r) :: rs

/-- The state-code derivation: only when the derived country code is
`"us"`, take `tweet['place']['full_name'].split(',')[-1].strip().lower()`
(the `[-1]` subscript is the last element of the non-empty split) and
null it out when longer than two characters.  (The country code is
non-null only when the place is present, so the `full_name` access cannot
fail.) -/
def deriveStateCode (t : Tweet) : Option PStr :=
  match t.place with
  | none => none
  | some p =>
    if pyLower p.country_code = "us".toList then
      let state_code := pyLower (pyStrip ((pySplit ',' p.full_name).getLastD []))
      if state_code.length > 2 then none else some state_code
    else none

/-- `tweet['place']['full_name']` with the `TypeError` from a `null` place
caught and mapped to `None`; not passed through `remove_nulls`. -/
def derivePlaceName (t : Tweet) : Option PStr :=
  match t.place with
  | none => none
  | some p => some p.full_name

/-- The parameter record bound for the `INSERT INTO tweets`. -/
def tweetRow (t : Tweet) (geo_str geo_coords : Option PStr) : TweetRow :=
  { id_tweets := t.id,
    id_users := t.user.id,
    created_at := t.created_at,
    in_reply_to_status_id := t.in_reply_to_status_id,
    in_reply_to_user_id := t.in_reply_to_user_id,
    quoted_status_id := t.quoted_status_id,
    geo := geoColumn geo_str geo_coords,
    retweet_count := t.retweet_count,
    quote_count := t.quote_count,
    favorite_count := t.favorite_count,
    withheld_copyright := t.withheld_copyright,
    withheld_in_countries := t.withheld_in_countries,
    place_name := derivePlaceName t,
    country_code := deriveCountryCode t,
    state_code := deriveStateCode t,
    lang := t.lang,
    text := remove_nulls (some (deriveText t)),
    source := remove_nulls t.source }

/-- The reply-target foreign-key step: when `in_reply_to_user_id` is
present and non-null, select the user row and, when absent, insert an
unhydrated placeholder row carrying only the id. -/
def ensureReplyUser (t : Tweet) (db : DB) : Except PyErr DB :=
  match t.in_reply_to_user_id with
  | none => .ok db
  | some uid =>
    if db.users.any (fun r => r.id_users = uid) then .ok db
    else insertUserPlain { id_users := uid } db

/-- Url entities: `tweet['extended_tweet']['entities']['urls']`, falling
back to `tweet['entities']['urls']` on `KeyError`. -/
def tweetUrlEntities (t : Tweet) : List UrlEntity :=
  match t.extended_tweet with
  | some et => et.entities.urls
  | none => t.entities.urls

/-- Mention entities, with the same extended-tweet fallback. -/
def tweetMentionEntities (t : Tweet) : List MentionEntity :=
  match t.extended_tweet with
  | some et => et.entities.user_mentions
  | none => t.entities.user_mentions

/-- The tag list: hashtag texts prefixed with a hash character and cashtag
texts prefixed with a dollar character, hashtags first. -/
def tweetTags (t : Tweet) : List PStr :=
  match t.extended_tweet with
  | some et =>
      et.entities.hashtags.map (fun h => '#' :: h.text)
        ++ et.entities.symbols.map (fun c => '$' :: c.text)
  | none =>
      t.entities.hashtags.map (fun h => '#' :: h.text)
        ++ t.entities.symbols.map (fun c => '$' :: c.text)

/-- Media entities: `extended_tweet.extended_entities.media`, then
`extended_entities.media`, then the empty list. -/
def tweetMedia (t : Tweet) : List MediaEntity :=
  match t.extended_tweet with
  | some et =>
    match et.extended_entities with
    | some ee => ee.media
    | none =>
      match t.extended_entities with
      | some ee => ee.media
      | none => []
  | none =>
    match t.extended_entities with
    | some ee => ee.media
    | none => []

/-- The user row bound for a mention's `INSERT INTO users`: id, screen
name and name (the latter two not passed through `remove_nulls`). -/
def mentionUserRow (m : MentionEntity) : UserRow :=
  { id_users := m.id, screen_name := some m.screen_name, name := some m.name }

/-! ## The per-entity loops -/

/-- The `for url in urls` loop: intern each expanded url and insert a
tweet-url join row. -/
def urlLoop (tid : Nat) : List UrlEntity → DB → Except PyErr DB
  | [], db => .ok db
  | u :: rest, db =>
    match get_id_urls u.expanded_url db with
    | none => .error .typeError
    | some (iu, db) => urlLoop tid rest (insertTweetUrlIgnore tid iu db)

/-- The `for mention in mentions` loop: insert the unhydrated mention user
row, then the tweet-mention join row. -/
def mentionLoop (tid : Nat) : List MentionEntity → DB → DB
  | [], db => db
  | m :: rest, db =>
    mentionLoop tid rest
      (insertTweetMentionIgnore tid m.id (insertUserIgnore (mentionUserRow m) db))

/-- The `for tag in tags` loop: insert each sanitized tag. -/
def tagLoop (tid : Nat) : List PStr → DB → DB
  | [], db => db
  | tag :: rest, db => tagLoop tid rest (insertTweetTagIgnore tid (remove_nulls (some tag)) db)

/-- The `for medium in media` loop: intern each media url and insert a
tweet-media join row with its type. -/
def mediaLoop (tid : Nat) : List MediaEntity → DB → Except PyErr DB
  | [], db => .ok db
  | m :: rest, db =>
    match get_id_urls m.media_url db with
    | none => .error .typeError
    | some (iu, db) => mediaLoop tid rest (insertTweetMediaIgnore tid iu m.type db)

/-! ## `insert_tweet` -/

/-- The transactional body of `insert_tweet` (everything inside
`with connection.begin()`): author url interning and author upsert,
geometry and field derivation, reply-target placeholder, the tweet row,
and the url / mention / tag / media loops.  Any error aborts the body. -/
def insertTweetBody (db : DB) (t : Tweet) : Except PyErr DB :=
  match (match t.user.url with
         | none => Except.ok ((none : Option Nat), db)
         | some u =>
           match get_id_urls u db with
           | none => Except.error PyErr.typeError
           | some (i, db1) => Except.ok (some i, db1)) with
  | .error e => .error e
  | .ok (user_id_urls, dbU) =>
    match deriveGeo t with
    | .error e => .error e
    | .ok (geo_str, geo_coords) =>
      match ensureReplyUser t (insertUserIgnore (authorRow t user_id_urls) dbU) with
      | .error e => .error e
      | .ok dbR =>
        match urlLoop t.id (tweetUrlEntities t)
            (insertTweetIgnore (tweetRow t geo_str geo_coords) dbR) with
        | .error e => .error e
        | .ok dbL =>
          mediaLoop t.id (tweetMedia t)
            (tagLoop t.id (tweetTags t)
              (mentionLoop t.id (tweetMentionEntities t) dbL))

/-- `insert_tweet` from load_tweets.py: skip when the tweet id is already
present (the duplicate check), otherwise run the body in one transaction,
committing on success and rolling back to the incoming state on any
exception (which then propagates, modelled by the second component). -/
def insert_tweet (db : DB) (t : Tweet) : DB × Option PyErr :=
  if db.tweets.any (fun r => r.id_tweets = t.id) then (db, none)
  else
    match insertTweetBody db t with
    | .ok db2 => (db2, none)
    | .error e => (db, some e)

/-! ## Concrete sample records (used by witnesses and counterexamples) -/

/-- A record with point coordinates `geo.coordinates = [10, 20]`. -/
def tPoint : Tweet :=
  { id := 1, user := { id := 5 }, geo := some { coordinates := [10, 20] } }

/-- A record whose `geo` and `place` fields are both JSON `null`. -/
def tGeoNull : Tweet := { id := 2, user := { id := 5 } }

/-- A record with a US place whose `full_name` is "Austin, TX". -/
def tAustin : Tweet :=
  { id := 3, user := { id := 5 }, geo := some { coordinates := [10, 20] },
    place := some { bounding_box := none, country_code := "US".toList,
                    full_name := "Austin, TX".toList } }

/-- A record with a US place whose trailing full-name segment is longer
than two characters. -/
def tLongRegion : Tweet :=
  { id := 4, user := { id := 5 }, geo := some { coordinates := [10, 20] },
    place := some { bounding_box := none, country_code := "US".toList,
                    full_name := "Some City, Some Longer Region".toList } }

/-- A record mentioning user 7, whose mention screen name and name and
whose place full name all contain the null character. -/
def tNullStrings : Tweet :=
  { id := 5, user := { id := 5 },
    geo := some { coordinates := [10, 20] },
    place := some { bounding_box := none, country_code := "US".toList,
                    full_name := 'L' :: Char.ofNat 0 :: "C, TX".toList },
    entities := { urls := [],
                  user_mentions := [{ id := 7,
                                      screen_name := 's' :: Char.ofNat 0 :: ['n'],
                                      name := 'n' :: Char.ofNat 0 :: ['m'] }],
                  hashtags := [], symbols := [] } }

/-- A reply record referencing user 9, with no prior user row. -/
def tReply : Tweet :=
  { id := 6, user := { id := 5 }, geo := some { coordinates := [10, 20] },
    in_reply_to_user_id := some 9 }

/-! ## C6: remove_nulls postcondition and idempotence -/

/-- C6: for every input, the output of `remove_nulls` contains no null
character, and applying `remove_nulls` twice equals applying it once. -/
theorem C6_remove_nulls_clean_and_idem :
    (∀ (s : Option PStr) (r : PStr), remove_nulls s = some r → Char.ofNat 0 ∉ r) ∧
    (∀ s : Option PStr, remove_nulls (remove_nulls s) = remove_nulls s) := by
  constructor
  · rintro s r h
    cases s with
    | none => simp [remove_nulls] at h
    | some v =>
      simp only [remove_nulls, Option.some.injEq] at h
      exact h ▸ replaceCharEmpty_not_mem _ _
  · intro s
    cases s with
    | none => rfl
    | some v => simp [remove_nulls, replaceCharEmpty_idem]

/-- C6 witness: the theorem applied to a concrete string containing a
null character. -/
theorem C6_remove_nulls_clean_and_idem_w :
    Char.ofNat 0 ∉ replaceCharEmpty (Char.ofNat 0) ['h', Char.ofNat 0, 'i'] ∧
    remove_nulls (remove_nulls (some ['h', Char.ofNat 0, 'i'])) =
      remove_nulls (some ['h', Char.ofNat 0, 'i']) :=
  ⟨C6_remove_nulls_clean_and_idem.1 (some ['h', Char.ofNat 0, 'i']) _ rfl,
   C6_remove_nulls_clean_and_idem.2 (some ['h', Char.ofNat 0, 'i'])⟩

/-! ## C10: the interning fallback select always finds a row -/

/-- C10: `get_id_urls` always returns a result: whenever the
conflict-ignoring insert returns no row, a row for the url already
exists, so the fallback select finds it and `res[0]` never dereferences
`None`. -/
theorem C10_get_id_urls_total :
    ∀ (url : PStr) (db : DB), (get_id_urls url db).isSome := by
  intro url db
  unfold get_id_urls
  by_cases h : db.urls.any (fun r => r.2 = url)
  · simp only [h, if_true]
    obtain ⟨r, hr, hrr⟩ := List.any_eq_true.mp h
    have : db.urls.find? (fun r => r.2 = url) |>.isSome :=
      List.find?_isSome.mpr ⟨r, hr, hrr⟩
    obtain ⟨r2, hr2⟩ := Option.isSome_iff_exists.mp this
    simp [hr2]
  · simp [h]

/-! ## C3: url interning -/

/-- Well-formedness of the `urls` table: serial ids are pairwise distinct
and below the next serial value, and the unique constraint on `url`
holds. -/
def UrlsWf (db : DB) : Prop :=
  (db.urls.map Prod.fst).Nodup ∧ (db.urls.map Prod.snd).Nodup ∧
    ∀ r ∈ db.urls, r.1 < db.next_id_urls

instance (db : DB) : Decidable (UrlsWf db) := by
  unfold UrlsWf; infer_instance

theorem get_id_urls_hit (url : PStr) (db : DB) (i : Nat)
    (hwf : UrlsWf db) (hmem : (i, url) ∈ db.urls) :
    get_id_urls url db = some (i, db) := by
  unfold get_id_urls
  have hany : db.urls.any (fun r => r.2 = url) = true :=
    List.any_eq_true.mpr ⟨(i, url), hmem, by simp⟩
  simp only [hany, if_true]
  have hfind : db.urls.find? (fun r => r.2 = url) |>.isSome :=
    List.find?_isSome.mpr ⟨(i, url), hmem, by simp⟩
  obtain ⟨r, hr⟩ := Option.isSome_iff_exists.mp hfind
  have hrmem : r ∈ db.urls := List.mem_of_find?_eq_some hr
  have hrurl : r.2 = url := by
    have := List.find?_some hr
    simpa using this
  have : r = (i, url) := by
    have hinj := List.inj_on_of_nodup_map hwf.2.1
    exact hinj hrmem hmem (by simpa using hrurl)
  simp [hr, this]

theorem get_id_urls_fresh (url : PStr) (db : DB)
    (h : ∀ r ∈ db.urls, r.2 ≠ url) :
    get_id_urls url db =
      some (db.next_id_urls,
        { db with urls := db.urls ++ [(db.next_id_urls, url)],
                  next_id_urls := db.next_id_urls + 1 }) := by
  unfold get_id_urls
  have hany : db.urls.any (fun r => r.2 = url) = false := by
    simp only [List.any_eq_false]
    intro r hr
    simpa using h r hr
  simp [hany]

theorem get_id_urls_mem (url : PStr) (db : DB) (i : Nat) (db1 : DB)
    (h : get_id_urls url db = some (i, db1)) : (i, url) ∈ db1.urls := by
  unfold get_id_urls at h
  split at h
  · rcases hfind : db.urls.find? (fun r => r.2 = url) with _ | r
    · rw [hfind] at h; cases h
    · rw [hfind] at h
      simp only [Option.some.injEq, Prod.mk.injEq] at h
      obtain ⟨h1, h2⟩ := h
      have hrmem : r ∈ db.urls := List.mem_of_find?_eq_some hfind
      have hrurl : r.2 = url := by simpa using List.find?_some hfind
      have hreq : r = (i, url) := by
        cases r; simp_all
      rw [← h2]
      exact hreq ▸ hrmem
  · simp only [Option.some.injEq, Prod.mk.injEq] at h
    obtain ⟨h1, h2⟩ := h
    subst h1; subst h2
    simp

theorem get_id_urls_urls_mono (url : PStr) (db : DB) (i : Nat) (db1 : DB)
    (h : get_id_urls url db = some (i, db1)) : ∀ r ∈ db.urls, r ∈ db1.urls := by
  unfold get_id_urls at h
  split at h
  · rcases hfind : db.urls.find? (fun r => r.2 = url) with _ | r
    · rw [hfind] at h; cases h
    · rw [hfind] at h
      simp only [Option.some.injEq, Prod.mk.injEq] at h
      obtain ⟨h1, h2⟩ := h
      rw [← h2]
      exact fun r hr => hr
  · simp only [Option.some.injEq, Prod.mk.injEq] at h
    obtain ⟨h1, h2⟩ := h
    rw [← h2]
    intro r hr
    simp [hr]

theorem get_id_urls_lt (url : PStr) (db : DB) (i : Nat) (db1 : DB)
    (hwf : UrlsWf db) (h : get_id_urls url db = some (i, db1)) :
    i < db1.next_id_urls := by
  unfold get_id_urls at h
  split at h
  · rcases hfind : db.urls.find? (fun r => r.2 = url) with _ | r
    · rw [hfind] at h; cases h
    · rw [hfind] at h
      simp only [Option.some.injEq, Prod.mk.injEq] at h
      obtain ⟨h1, h2⟩ := h
      subst h2
      exact h1 ▸ hwf.2.2 r (List.mem_of_find?_eq_some hfind)
  · simp only [Option.some.injEq, Prod.mk.injEq] at h
    obtain ⟨h1, h2⟩ := h
    subst h1; subst h2
    simp

theorem get_id_urls_wf (url : PStr) (db : DB) (i : Nat) (db1 : DB)
    (hwf : UrlsWf db) (h : get_id_urls url db = some (i, db1)) : UrlsWf db1 := by
  unfold get_id_urls at h
  split at h
  · rcases hfind : db.urls.find? (fun r => r.2 = url) with _ | r
    · rw [hfind] at h; cases h
    · rw [hfind] at h
      simp only [Option.some.injEq, Prod.mk.injEq] at h
      exact h.2 ▸ hwf
  · rename_i hany
    simp only [Option.some.injEq, Prod.mk.injEq] at h
    obtain ⟨h1, h2⟩ := h
    subst h2
    have hfresh : ∀ r ∈ db.urls, r.2 ≠ url := by
      intro r hr
      have := List.any_eq_false.mp (Bool.of_not_eq_true hany) r hr
      simpa using this
    refine ⟨?_, ?_, ?_⟩
    · simp only [List.map_append, List.map_cons, List.map_nil]
      rw [List.nodup_append]
      refine ⟨hwf.1, List.nodup_singleton _, ?_⟩
      intro a ha hb
      simp only [List.mem_singleton] at hb
      obtain ⟨r, hr, hrfst⟩ := List.mem_map.mp ha
      exact absurd (hb ▸ hrfst) (Nat.ne_of_lt (hwf.2.2 r hr))
    · simp only [List.map_append, List.map_cons, List.map_nil]
      rw [List.nodup_append]
      refine ⟨hwf.2.1, List.nodup_singleton _, ?_⟩
      intro a ha hb
      simp only [List.mem_singleton] at hb
      obtain ⟨r, hr, hrsnd⟩ := List.mem_map.mp ha
      exact hfresh r hr (hb ▸ hrsnd)
    · intro r hr
      simp only [List.mem_append, List.mem_singleton] at hr
      rcases hr with hr | hr
      · exact Nat.lt_succ_of_lt (hwf.2.2 r hr)
      · subst hr; simp

/-- C3: url interning.  On a well-formed store, `get_id_urls` called twice
with the same string returns the same identifier (and leaves the store
unchanged the second time), and two sequential calls with distinct
strings return distinct identifiers. -/
theorem C3_get_id_urls_interning :
    ∀ (db : DB) (u v : PStr), UrlsWf db →
      (∀ i db1, get_id_urls u db = some (i, db1) →
        get_id_urls u db1 = some (i, db1)) ∧
      (∀ i db1 j db2, u ≠ v → get_id_urls u db = some (i, db1) →
        get_id_urls v db1 = some (j, db2) → i ≠ j) := by
  intro db u v hwf
  constructor
  · intro i db1 h
    exact get_id_urls_hit u db1 i (get_id_urls_wf u db i db1 hwf h)
      (get_id_urls_mem u db i db1 h)
  · intro i db1 j db2 huv h1 h2
    have hwf1 : UrlsWf db1 := get_id_urls_wf u db i db1 hwf h1
    have hwf2 : UrlsWf db2 := get_id_urls_wf v db1 j db2 hwf1 h2
    have hu2 : (i, u) ∈ db2.urls :=
      get_id_urls_urls_mono v db1 j db2 h2 _ (get_id_urls_mem u db i db1 h1)
    have hv2 : (j, v) ∈ db2.urls := get_id_urls_mem v db1 j db2 h2
    intro hij
    subst hij
    have hinj := List.inj_on_of_nodup_map hwf2.1
    have heq := hinj hu2 hv2 rfl
    exact huv (by simpa using congrArg Prod.snd heq)

/-- C3 witness: the theorem applied at the empty store with the strings
"a" and "b". -/
theorem C3_get_id_urls_interning_w :
    get_id_urls ['a']
        { DB.empty with urls := [(0, ['a'])], next_id_urls := 1 } =
      some (0, { DB.empty with urls := [(0, ['a'])], next_id_urls := 1 }) ∧
    (0 : Nat) ≠ 1 := by
  constructor
  · exact (C3_get_id_urls_interning DB.empty ['a'] ['b'] (by decide)).1 0
      { DB.empty with urls := [(0, ['a'])], next_id_urls := 1 } rfl
  · exact (C3_get_id_urls_interning DB.empty ['a'] ['b'] (by decide)).2 0
      { DB.empty with urls := [(0, ['a'])], next_id_urls := 1 } 1
      { DB.empty with urls := [(0, ['a']), (1, ['b'])], next_id_urls := 2 }
      (by decide) rfl rfl

/-! ## C4: the geometry fallback chain -/

/-- Comma-separated concatenation (used to restate ring closure in the
spec's terms: a ring is its point sequence, comma-separated, in
parentheses). -/
def commaSep : List PStr → PStr
  | [] => []
  | [s] => s
  | s :: rest => s ++ ',' :: commaSep rest

/-- A ring expressed directly from its point sequence. -/
def ringOfPoints (pts : List (Int × Int)) : PStr :=
  '(' :: (commaSep (pts.map strPoint) ++ [')'])

theorem commaSep_cons (s : PStr) (l : List PStr) (h : l ≠ []) :
    commaSep (s :: l) = s ++ ',' :: commaSep l := by
  cases l with
  | nil => exact absurd rfl h
  | cons x xs => rfl

theorem ringBody_closed (l : List (Int × Int)) (p0 : Int × Int) :
    ringBody l ++ strPoint p0 = commaSep ((l ++ [p0]).map strPoint) := by
  induction l with
  | nil => rfl
  | cons p ps ih =>
    have hne : (ps ++ [p0]).map strPoint ≠ [] := by simp
    calc ringBody (p :: ps) ++ strPoint p0
        = strPoint p ++ ',' :: (ringBody ps ++ strPoint p0) := by
          simp [ringBody, List.append_assoc]
      _ = strPoint p ++ ',' :: commaSep ((ps ++ [p0]).map strPoint) := by rw [ih]
      _ = commaSep (((p :: ps) ++ [p0]).map strPoint) := by
          rw [List.cons_append, List.map_cons, commaSep_cons _ _ hne]

/-- The ring built for a nonempty polygon is exactly the ring of its point
sequence with the first point repeated at the end. -/
theorem mkRing_closed (p0 : Int × Int) (rest : List (Int × Int)) :
    mkRing (p0 :: rest) = Except.ok (ringOfPoints ((p0 :: rest) ++ [p0])) := by
  unfold mkRing ringOfPoints
  rw [← ringBody_closed]

theorem multiPolygonBody_closed (polys : List (List (Int × Int)))
    (h : ∀ poly ∈ polys, poly ≠ []) :
    multiPolygonBody polys =
      Except.ok (commaSep (polys.map (fun poly => ringOfPoints (poly ++ [poly.headI])))) := by
  induction polys with
  | nil => rfl
  | cons poly rest ih =>
    have hpoly : poly ≠ [] := h poly (by simp)
    obtain ⟨p0, ps, rfl⟩ : ∃ p0 ps, poly = p0 :: ps := by
      cases poly with
      | nil => exact absurd rfl hpoly
      | cons a as => exact ⟨a, as, rfl⟩
    have hrest : ∀ q ∈ rest, q ≠ [] := fun q hq => h q (by simp [hq])
    unfold multiPolygonBody
    rw [mkRing_closed, ih hrest]
    cases rest with
    | nil => simp [commaSep]
    | cons q qs =>
      simp only [List.map_cons]
      simp [commaSep, List.headI, List.append_assoc]

/-- C4 counterexample: for a record whose `geo` and `place` are both
`null` — so neither point coordinates nor a place bounding box are
available — the geometry derivation does not fall back to null geometry:
the `TypeError` raised by subscripting the null place escapes, and the
whole record is rolled back. -/
theorem C4_geometry_fallback_cex :
    deriveGeo tGeoNull = Except.error PyErr.typeError ∧
    insert_tweet DB.empty tGeoNull = (DB.empty, some PyErr.typeError) :=
  ⟨rfl, rfl⟩

/-- C4 amended: the geometry precedence is point, then polygon, but the
null fallback is narrower than claimed: a point is built (coordinate
order preserved) whenever `geo` provides at least two coordinates;
otherwise, when the place is present with a bounding box, a MULTIPOLYGON
is built whose rings each repeat their first point at the end; geometry
is null only when the place is present without a bounding-box key and the
author is geo-enabled (otherwise a `NameError` escapes); and when the
place is null the `TypeError` escapes uncaught. -/
theorem C4_geometry_fallback_amended :
    (∀ (t : Tweet) (g : Geo) (x y : Int) (rest : List Int),
      t.geo = some g → g.coordinates = x :: y :: rest →
      deriveGeo t = Except.ok (some ("POINT".toList),
        some ((toString x).toList ++ ' ' :: (toString y).toList))) ∧
    (∀ (t : Tweet) (p : Place) (bb : BoundingBox),
      t.geo = none → t.place = some p → p.bounding_box = some bb →
      (∀ poly ∈ bb.coordinates, poly ≠ []) →
      deriveGeo t = Except.ok (some ("MULTIPOLYGON".toList),
        some ('(' :: (commaSep (bb.coordinates.map
          (fun poly => ringOfPoints (poly ++ [poly.headI]))) ++ [')'])))) ∧
    (∀ (t : Tweet) (p : Place),
      t.geo = none → t.place = some p → p.bounding_box = none →
      deriveGeo t = if t.user.geo_enabled then Except.ok (none, none)
        else Except.error PyErr.nameError) ∧
    (∀ t : Tweet, t.geo = none → t.place = none →
      deriveGeo t = Except.error PyErr.typeError) := by
  refine ⟨?_, ?_, ?_, ?_⟩
  · intro t g x y rest hg hc
    simp only [deriveGeo, hg, hc]
  · intro t p bb hg hp hbb hne
    simp only [deriveGeo, hg, hp, hbb, mkMultiPolygonCoords,
      multiPolygonBody_closed bb.coordinates hne]
  · intro t p hg hp hbb
    simp only [deriveGeo, hg, hp, hbb]
  · intro t hg hp
    simp only [deriveGeo, hg, hp]

/-- A record with a one-ring bounding box. -/
def tBBox : Tweet :=
  { id := 7, user := { id := 5 },
    place := some { bounding_box := some { coordinates := [[(1, 2), (3, 4)]] },
                    country_code := "FR".toList, full_name := "Paris".toList } }

/-- A geo-enabled author with a place lacking a bounding box. -/
def tGeoEnabled : Tweet :=
  { id := 8, user := { id := 5, geo_enabled := true },
    place := some { bounding_box := none, country_code := "FR".toList,
                    full_name := "Paris".toList } }

/-- C4 witness: the amended theorem applied at concrete records for each
branch of the precedence chain. -/
theorem C4_geometry_fallback_amended_w :
    deriveGeo tPoint = Except.ok (some ("POINT".toList),
      some ((toString (10 : Int)).toList ++ ' ' :: (toString (20 : Int)).toList)) ∧
    deriveGeo tBBox = Except.ok (some ("MULTIPOLYGON".toList),
      some ('(' :: (commaSep ([[(1, 2), (3, 4)]].map (fun poly =>
        ringOfPoints (poly ++ [List.headI poly]))) ++ [')']))) ∧
    deriveGeo tGeoEnabled = (if (tGeoEnabled).user.geo_enabled then
      Except.ok (none, none) else Except.error PyErr.nameError) ∧
    deriveGeo tGeoNull = Except.error PyErr.typeError :=
  ⟨C4_geometry_fallback_amended.1 tPoint { coordinates := [10, 20] } 10 20 [] rfl rfl,
   C4_geometry_fallback_amended.2.1 tBBox
     { bounding_box := some { coordinates := [[(1, 2), (3, 4)]] },
       country_code := "FR".toList, full_name := "Paris".toList }
     { coordinates := [[(1, 2), (3, 4)]] } rfl rfl rfl (by decide),
   C4_geometry_fallback_amended.2.2.1 tGeoEnabled
     { bounding_box := none, country_code := "FR".toList, full_name := "Paris".toList }
     rfl rfl rfl,
   C4_geometry_fallback_amended.2.2.2 tGeoNull rfl rfl⟩

/-! ## C7: country and state code derivation -/

/-- The spec's "trailing comma-segment" of a string: the suffix after the
last separator (the whole string when no separator occurs). -/
def trailingSegment (sep : Char) : PStr → PStr
  | [] => []
  | c :: cs =>
    if sep ∈ cs then trailingSegment sep cs
    else if c = sep then cs else c :: cs

/-- The spec's description of the stored state code: only for country
code "us", the lower-cased, whitespace-stripped trailing comma-segment of
the place's full name, null when longer than two characters. -/
def stateCodeSpec (t : Tweet) : Option PStr :=
  if deriveCountryCode t = some ("us".toList) then
    match t.place with
    | none => none
    | some p =>
      let seg := pyLower (pyStrip (trailingSegment ',' p.full_name))
      if seg.length ≤ 2 then some seg else none
  else none

theorem pySplit_ne_nil (sep : Char) (s : PStr) : pySplit sep s ≠ [] := by
  cases s with
  | nil => simp [pySplit]
  | cons c cs =>
    unfold pySplit
    split
    · simp
    · split <;> simp

theorem pySplit_of_not_mem (sep : Char) (s : PStr) (h : sep ∉ s) :
    pySplit sep s = [s] := by
  induction s with
  | nil => rfl
  | cons c cs ih =>
    simp only [List.mem_cons, not_or] at h
    unfold pySplit
    rw [if_neg (fun hc => h.1 hc.symm), ih h.2]

theorem pySplit_cons_sep (sep c : Char) (cs : PStr) (hc : c = sep) :
    pySplit sep (c :: cs) = [] :: pySplit sep cs := by
  simp only [pySplit]
  rw [if_pos hc]

theorem pySplit_cons_ne (sep c : Char) (cs r : PStr) (rs : List PStr)
    (hc : c ≠ sep) (hsplit : pySplit sep cs = r :: rs) :
    pySplit sep (c :: cs) = (c :: r) :: rs := by
  simp only [pySplit]
  rw [if_neg hc, hsplit]

theorem trailingSegment_cons_mem (sep c : Char) (cs : PStr) (h : sep ∈ cs) :
    trailingSegment sep (c :: cs) = trailingSegment sep cs := by
  simp only [trailingSegment]
  rw [if_pos h]

theorem trailingSegment_cons_sep (sep c : Char) (cs : PStr) (h : sep ∉ cs)
    (hc : c = sep) : trailingSegment sep (c :: cs) = cs := by
  simp only [trailingSegment]
  rw [if_neg h, if_pos hc]

theorem pySplit_of_mem (sep : Char) (s : PStr) (h : sep ∈ s) :
    ∃ r rs, pySplit sep s = r :: rs ∧ rs ≠ [] := by
  induction s with
  | nil => cases h
  | cons c cs ih =>
    by_cases hc : c = sep
    · exact ⟨[], pySplit sep cs, pySplit_cons_sep sep c cs hc, pySplit_ne_nil sep cs⟩
    · have hmem : sep ∈ cs := by
        rcases List.mem_cons.mp h with h | h
        · exact absurd h.symm hc
        · exact h
      obtain ⟨r, rs, hsplit, hrs⟩ := ih hmem
      exact ⟨c :: r, rs, pySplit_cons_ne sep c cs r rs hc hsplit, hrs⟩

theorem trailingSegment_of_not_mem (sep : Char) (s : PStr) (h : sep ∉ s) :
    trailingSegment sep s = s := by
  induction s with
  | nil => rfl
  | cons c cs ih =>
    simp only [List.mem_cons, not_or] at h
    unfold trailingSegment
    rw [if_neg (by simpa using h.2), if_neg (fun hc => h.1 hc.symm)]

theorem pySplit_getLastD (sep : Char) (s : PStr) :
    ∀ d, (pySplit sep s).getLastD d = trailingSegment sep s := by
  induction s with
  | nil => intro d; rfl
  | cons c cs ih =>
    intro d
    by_cases hc : c = sep
    · rw [pySplit_cons_sep sep c cs hc, List.getLastD_cons, ih []]
      by_cases hmem : sep ∈ cs
      · rw [trailingSegment_cons_mem sep c cs hmem]
      · rw [trailingSegment_of_not_mem sep cs hmem,
          trailingSegment_cons_sep sep c cs hmem hc]
    · by_cases hmem : sep ∈ cs
      · obtain ⟨r, rs, hsplit, hrs⟩ := pySplit_of_mem sep cs hmem
        obtain ⟨x, xs, rfl⟩ : ∃ x xs, rs = x :: xs := by
          cases rs with
          | nil => exact absurd rfl hrs
          | cons x xs => exact ⟨x, xs, rfl⟩
        have hIH : (x :: xs).getLastD r = trailingSegment sep cs := by
          have h0 := ih []
          rw [hsplit, List.getLastD_cons] at h0
          exact h0
        rw [pySplit_cons_ne sep c cs r (x :: xs) hc hsplit, List.getLastD_cons,
          trailingSegment_cons_mem sep c cs hmem, ← hIH,
          List.getLastD_cons, List.getLastD_cons]
      · rw [pySplit_cons_ne sep c cs cs [] hc (pySplit_of_not_mem sep cs hmem),
          trailingSegment_of_not_mem sep (c :: cs)
            (by simp only [List.mem_cons, not_or]; exact ⟨fun h => hc h.symm, hmem⟩)]
        rfl

/-- C7: the stored country code is the lower-cased place country code
(null when the place is null); the state code agrees with the spec's
description (lower-cased, stripped trailing comma-segment of the full
name, only for country "us", null when over two characters), it is
non-null only when the country code is "us", and the two concrete
examples from the spec evaluate as claimed. -/
theorem C7_country_state_codes :
    (∀ t : Tweet, deriveCountryCode t = t.place.map (fun p => pyLower p.country_code)) ∧
    (∀ t : Tweet, deriveStateCode t = stateCodeSpec t) ∧
    (∀ (t : Tweet) (s : PStr), deriveStateCode t = some s →
      deriveCountryCode t = some ("us".toList)) ∧
    deriveStateCode tAustin = some ['t', 'x'] ∧
    deriveStateCode tLongRegion = none := by
  have hspec : ∀ t : Tweet, deriveStateCode t = stateCodeSpec t := by
    intro t
    unfold deriveStateCode stateCodeSpec deriveCountryCode
    cases hp : t.place with
    | none => simp
    | some p =>
      simp only [Option.some.injEq]
      by_cases hus : pyLower p.country_code = "us".toList
      · rw [if_pos hus, if_pos hus, pySplit_getLastD]
        by_cases hlen : (pyLower (pyStrip (trailingSegment ',' p.full_name))).length > 2
        · rw [if_pos hlen, if_neg (by omega)]
        · rw [if_neg hlen, if_pos (by omega)]
      · rw [if_neg hus, if_neg hus]
  refine ⟨?_, hspec, ?_, by decide, by decide⟩
  · intro t
    unfold deriveCountryCode
    cases t.place <;> simp
  · intro t s h
    rw [hspec] at h
    unfold stateCodeSpec at h
    by_cases hus : deriveCountryCode t = some ("us".toList)
    · exact hus
    · rw [if_neg hus] at h
      cases h

/-- C7 witness: the theorem applied at the "Austin, TX" record. -/
theorem C7_country_state_codes_w :
    deriveCountryCode tAustin = some ("us".toList) :=
  C7_country_state_codes.2.2.1 tAustin ['t', 'x'] C7_country_state_codes.2.2.2.1

/-! ## Frame lemmas about the body of `insert_tweet` -/

theorem get_id_urls_frame (url : PStr) (db : DB) (i : Nat) (db1 : DB)
    (h : get_id_urls url db = some (i, db1)) :
    db1.users = db.users ∧ db1.tweets = db.tweets ∧
      db1.tweet_mentions = db.tweet_mentions := by
  unfold get_id_urls at h
  split at h
  · rcases hfind : db.urls.find? (fun r => r.2 = url) with _ | r <;> rw [hfind] at h
    · cases h
    · simp only [Option.some.injEq, Prod.mk.injEq] at h
      rw [← h.2]
      exact ⟨rfl, rfl, rfl⟩
  · simp only [Option.some.injEq, Prod.mk.injEq] at h
    rw [← h.2]
    exact ⟨rfl, rfl, rfl⟩

theorem insertUserIgnore_frame (row : UserRow) (db : DB) :
    (insertUserIgnore row db).tweets = db.tweets ∧
    (insertUserIgnore row db).tweet_mentions = db.tweet_mentions ∧
    (∀ r ∈ db.users, r ∈ (insertUserIgnore row db).users) ∧
    (∃ r ∈ (insertUserIgnore row db).users, r.id_users = row.id_users) := by
  unfold insertUserIgnore
  split
  · rename_i h
    obtain ⟨r, hr, hrr⟩ := List.any_eq_true.mp h
    exact ⟨rfl, rfl, fun r hr => hr, ⟨r, hr, by simpa using hrr⟩⟩
  · exact ⟨rfl, rfl, fun r hr => by simp [hr], ⟨row, by simp⟩⟩

theorem insertTweetIgnore_frame (row : TweetRow) (db : DB) :
    (insertTweetIgnore row db).users = db.users ∧
    (insertTweetIgnore row db).tweet_mentions = db.tweet_mentions ∧
    (∃ r ∈ (insertTweetIgnore row db).tweets, r.id_tweets = row.id_tweets) := by
  unfold insertTweetIgnore
  split
  · rename_i h
    obtain ⟨r, hr, hrr⟩ := List.any_eq_true.mp h
    exact ⟨rfl, rfl, ⟨r, hr, by simpa using hrr⟩⟩
  · exact ⟨rfl, rfl, ⟨row, by simp⟩⟩

theorem insertTweetUrlIgnore_frame (tid iu : Nat) (db : DB) :
    (insertTweetUrlIgnore tid iu db).users = db.users ∧
    (insertTweetUrlIgnore tid iu db).tweets = db.tweets ∧
    (insertTweetUrlIgnore tid iu db).tweet_mentions = db.tweet_mentions := by
  unfold insertTweetUrlIgnore
  split <;> exact ⟨rfl, rfl, rfl⟩

theorem insertTweetMentionIgnore_frame (tid uid : Nat) (db : DB) :
    (insertTweetMentionIgnore tid uid db).users = db.users ∧
    (insertTweetMentionIgnore tid uid db).tweets = db.tweets ∧
    (∀ pr ∈ db.tweet_mentions, pr ∈ (insertTweetMentionIgnore tid uid db).tweet_mentions) ∧
    (tid, uid) ∈ (insertTweetMentionIgnore tid uid db).tweet_mentions := by
  unfold insertTweetMentionIgnore
  split
  · rename_i h
    obtain ⟨r, hr, hrr⟩ := List.any_eq_true.mp h
    have : r = (tid, uid) := by simpa using hrr
    exact ⟨rfl, rfl, fun pr hpr => hpr, this ▸ hr⟩
  · exact ⟨rfl, rfl, fun pr hpr => by simp [hpr], by simp⟩

theorem insertTweetTagIgnore_frame (tid : Nat) (tag : Option PStr) (db : DB) :
    (insertTweetTagIgnore tid tag db).users = db.users ∧
    (insertTweetTagIgnore tid tag db).tweets = db.tweets ∧
    (insertTweetTagIgnore tid tag db).tweet_mentions = db.tweet_mentions := by
  unfold insertTweetTagIgnore
  split <;> exact ⟨rfl, rfl, rfl⟩

theorem insertTweetMediaIgnore_frame (tid iu : Nat) (mtype : PStr) (db : DB) :
    (insertTweetMediaIgnore tid iu mtype db).users = db.users ∧
    (insertTweetMediaIgnore tid iu mtype db).tweets = db.tweets ∧
    (insertTweetMediaIgnore tid iu mtype db).tweet_mentions = db.tweet_mentions := by
  unfold insertTweetMediaIgnore
  split <;> exact ⟨rfl, rfl, rfl⟩

theorem urlLoop_frame (tid : Nat) (l : List UrlEntity) :
    ∀ (db db' : DB), urlLoop tid l db = Except.ok db' →
      db'.users = db.users ∧ db'.tweets = db.tweets ∧
        db'.tweet_mentions = db.tweet_mentions := by
  induction l with
  | nil =>
    intro db db' h
    simp only [urlLoop, Except.ok.injEq] at h
    rw [← h]
    exact ⟨rfl, rfl, rfl⟩
  | cons u rest ih =>
    intro db db' h
    unfold urlLoop at h
    rcases hg : get_id_urls u.expanded_url db with _ | ⟨iu, db1⟩ <;> rw [hg] at h
    · cases h
    · obtain ⟨h1, h2, h3⟩ := ih _ _ h
      obtain ⟨g1, g2, g3⟩ := get_id_urls_frame _ _ _ _ hg
      obtain ⟨f1, f2, f3⟩ := insertTweetUrlIgnore_frame tid iu db1
      exact ⟨by rw [h1, f1, g1], by rw [h2, f2, g2], by rw [h3, f3, g3]⟩

theorem mentionLoop_frame (tid : Nat) (l : List MentionEntity) :
    ∀ db : DB,
      (mentionLoop tid l db).tweets = db.tweets ∧
      (∀ r ∈ db.users, r ∈ (mentionLoop tid l db).users) ∧
      (∀ pr ∈ db.tweet_mentions, pr ∈ (mentionLoop tid l db).tweet_mentions) := by
  induction l with
  | nil => exact fun db => ⟨rfl, fun r hr => hr, fun pr hpr => hpr⟩
  | cons m rest ih =>
    intro db
    unfold mentionLoop
    obtain ⟨u1, u2, u3, u4⟩ := insertUserIgnore_frame (mentionUserRow m) db
    obtain ⟨m1, m2, m3, m4⟩ :=
      insertTweetMentionIgnore_frame tid m.id (insertUserIgnore (mentionUserRow m) db)
    obtain ⟨i1, i2, i3⟩ :=
      ih (insertTweetMentionIgnore tid m.id (insertUserIgnore (mentionUserRow m) db))
    refine ⟨by rw [i1, m2, u1], ?_, ?_⟩
    · intro r hr
      exact i2 r (by rw [m1]; exact u3 r hr)
    · intro pr hpr
      exact i3 pr (m3 pr (by rw [u2]; exact hpr))

theorem mentionLoop_processes (tid : Nat) (l : List MentionEntity) :
    ∀ db : DB, ∀ m ∈ l,
      (∃ r ∈ (mentionLoop tid l db).users, r.id_users = m.id) ∧
      (tid, m.id) ∈ (mentionLoop tid l db).tweet_mentions := by
  induction l with
  | nil => intro db m hm; cases hm
  | cons m0 rest ih =>
    intro db m hm
    unfold mentionLoop
    rcases List.mem_cons.mp hm with rfl | hm
    · obtain ⟨u1, u2, u3, u4⟩ := insertUserIgnore_frame (mentionUserRow m) db
      obtain ⟨n1, n2, n3, n4⟩ :=
        insertTweetMentionIgnore_frame tid m.id (insertUserIgnore (mentionUserRow m) db)
      obtain ⟨i1, i2, i3⟩ := mentionLoop_frame tid rest
        (insertTweetMentionIgnore tid m.id (insertUserIgnore (mentionUserRow m) db))
      constructor
      · obtain ⟨r, hr, hrid⟩ := u4
        exact ⟨r, i2 r (by rw [n1]; exact hr), by simpa [mentionUserRow] using hrid⟩
      · exact i3 _ n4
    · exact ih (insertTweetMentionIgnore tid m0.id (insertUserIgnore (mentionUserRow m0) db)) m hm

theorem tagLoop_frame (tid : Nat) (l : List PStr) :
    ∀ db : DB,
      (tagLoop tid l db).users = db.users ∧
      (tagLoop tid l db).tweets = db.tweets ∧
      (tagLoop tid l db).tweet_mentions = db.tweet_mentions := by
  induction l with
  | nil => exact fun db => ⟨rfl, rfl, rfl⟩
  | cons tag rest ih =>
    intro db
    unfold tagLoop
    obtain ⟨t1, t2, t3⟩ := insertTweetTagIgnore_frame tid (remove_nulls (some tag)) db
    obtain ⟨i1, i2, i3⟩ := ih (insertTweetTagIgnore tid (remove_nulls (some tag)) db)
    exact ⟨by rw [i1, t1], by rw [i2, t2], by rw [i3, t3]⟩

theorem mediaLoop_frame (tid : Nat) (l : List MediaEntity) :
    ∀ (db db' : DB), mediaLoop tid l db = Except.ok db' →
      db'.users = db.users ∧ db'.tweets = db.tweets ∧
        db'.tweet_mentions = db.tweet_mentions := by
  induction l with
  | nil =>
    intro db db' h
    simp only [mediaLoop, Except.ok.injEq] at h
    rw [← h]
    exact ⟨rfl, rfl, rfl⟩
  | cons m rest ih =>
    intro db db' h
    unfold mediaLoop at h
    rcases hg : get_id_urls m.media_url db with _ | ⟨iu, db1⟩ <;> rw [hg] at h
    · cases h
    · obtain ⟨h1, h2, h3⟩ := ih _ _ h
      obtain ⟨g1, g2, g3⟩ := get_id_urls_frame _ _ _ _ hg
      obtain ⟨f1, f2, f3⟩ := insertTweetMediaIgnore_frame tid iu m.type db1
      exact ⟨by rw [h1, f1, g1], by rw [h2, f2, g2], by rw [h3, f3, g3]⟩

theorem insertUserPlain_ok (row : UserRow) (db db' : DB)
    (h : insertUserPlain row db = Except.ok db') :
    db' = { db with users := db.users ++ [row] } := by
  unfold insertUserPlain at h
  split at h
  · cases h
  · simpa using h.symm

theorem ensureReplyUser_frame (t : Tweet) (db db' : DB)
    (h : ensureReplyUser t db = Except.ok db') :
    db'.tweets = db.tweets ∧ db'.tweet_mentions = db.tweet_mentions ∧
    (∀ r ∈ db.users, r ∈ db'.users) ∧
    (∀ uid, t.in_reply_to_user_id = some uid → ∃ r ∈ db'.users, r.id_users = uid) := by
  rcases hr : t.in_reply_to_user_id with _ | uid
  · simp only [ensureReplyUser, hr, Except.ok.injEq] at h
    rw [← h]
    exact ⟨rfl, rfl, fun r hrr => hrr, fun uid huid => by cases huid⟩
  · simp only [ensureReplyUser, hr] at h
    split at h
    · rename_i hany
      simp only [Except.ok.injEq] at h
      rw [← h]
      refine ⟨rfl, rfl, fun r hrr => hrr, fun uid2 huid2 => ?_⟩
      injection huid2 with huid2
      obtain ⟨r, hrm, hrid⟩ := List.any_eq_true.mp hany
      exact ⟨r, hrm, by rw [← huid2]; simpa using hrid⟩
    · have hok := insertUserPlain_ok _ _ _ h
      rw [hok]
      refine ⟨rfl, rfl, fun r hrr => by simp [hrr], fun uid2 huid2 => ?_⟩
      injection huid2 with huid2
      exact ⟨{ id_users := uid }, by simp, by simpa using huid2⟩

theorem ensureReplyUser_fresh (t : Tweet) (db : DB) (uid : Nat)
    (hr : t.in_reply_to_user_id = some uid)
    (h : ∀ r ∈ db.users, r.id_users ≠ uid) :
    ensureReplyUser t db = Except.ok { db with users := db.users ++ [{ id_users := uid }] } := by
  have hany : db.users.any (fun r => r.id_users = uid) = false := by
    simp only [List.any_eq_false]
    intro r hrm
    simpa using h r hrm
  simp only [ensureReplyUser, hr, insertUserPlain, hany]
  simp

/-- Decomposition of a successful transactional body: the tweet row with
the record's id is in the final tweets table, every reply-target id has a
user row, and every mention produced a user row and a join row. -/
theorem insertTweetBody_ok (db : DB) (t : Tweet) (db' : DB)
    (h : insertTweetBody db t = Except.ok db') :
    (∃ r ∈ db'.tweets, r.id_tweets = t.id) ∧
    (∀ uid, t.in_reply_to_user_id = some uid → ∃ r ∈ db'.users, r.id_users = uid) ∧
    (∀ m ∈ tweetMentionEntities t,
      (∃ r ∈ db'.users, r.id_users = m.id) ∧ (t.id, m.id) ∈ db'.tweet_mentions) := by
  unfold insertTweetBody at h
  split at h
  · cases h
  · rename_i step1 user_id_urls dbU heq1
    split at h
    · cases h
    · rename_i geo geo_str geo_coords heq2
      split at h
      · cases h
      · rename_i dbR hrep
        split at h
        · cases h
        · rename_i dbL hurl
          obtain ⟨e1, e2, e3, e4⟩ := ensureReplyUser_frame t _ _ hrep
          obtain ⟨ti1, ti2, ti3⟩ :=
            insertTweetIgnore_frame (tweetRow t geo_str geo_coords) dbR
          obtain ⟨ul1, ul2, ul3⟩ := urlLoop_frame t.id (tweetUrlEntities t) _ _ hurl
          obtain ⟨ml1, ml2, ml3⟩ := mentionLoop_frame t.id (tweetMentionEntities t) dbL
          obtain ⟨tg1, tg2, tg3⟩ := tagLoop_frame t.id (tweetTags t)
            (mentionLoop t.id (tweetMentionEntities t) dbL)
          obtain ⟨md1, md2, md3⟩ := mediaLoop_frame t.id (tweetMedia t) _ _ h
          refine ⟨?_, ?_, ?_⟩
          · -- the tweet row survives to the end
            obtain ⟨r, hr, hrid⟩ := ti3
            refine ⟨r, ?_, by simpa [tweetRow] using hrid⟩
            rw [md2, tg2, ml1, ul2]
            exact hr
          · -- the reply-target user row survives to the end
            intro uid huid
            obtain ⟨r, hr, hrid⟩ := e4 uid huid
            refine ⟨r, ?_, hrid⟩
            rw [md1, tg1]
            exact ml2 r (by rw [ul1, ti1]; exact hr)
          · -- each mention's user row and join row survive to the end
            intro m hm
            obtain ⟨⟨r, hr, hrid⟩, hjoin⟩ :=
              mentionLoop_processes t.id (tweetMentionEntities t) dbL m hm
            exact ⟨⟨r, by rw [md1, tg1]; exact hr, hrid⟩,
              by rw [md3, tg3]; exact hjoin⟩

/-! ## C1: idempotent re-processing -/

/-- C1: when the record's id is already present in the tweets table,
`insert_tweet` returns at the duplicate check leaving the store unchanged
with no exception, and therefore processing the same record twice leaves
the same final store as processing it once. -/
theorem C1_insert_tweet_idempotent :
    ∀ (db : DB) (t : Tweet),
      ((∃ r ∈ db.tweets, r.id_tweets = t.id) → insert_tweet db t = (db, none)) ∧
      (insert_tweet (insert_tweet db t).1 t).1 = (insert_tweet db t).1 := by
  intro db t
  have hdup : ∀ db2 : DB, (∃ r ∈ db2.tweets, r.id_tweets = t.id) →
      insert_tweet db2 t = (db2, none) := by
    intro db2 ⟨r, hr, hrid⟩
    unfold insert_tweet
    rw [if_pos (List.any_eq_true.mpr ⟨r, hr, by simpa using hrid⟩)]
  refine ⟨hdup db, ?_⟩
  by_cases hin : db.tweets.any (fun r => r.id_tweets = t.id)
  · have h1 : insert_tweet db t = (db, none) := by
      unfold insert_tweet
      rw [if_pos hin]
    rw [h1, h1]
  · rcases hbody : insertTweetBody db t with e | db2
    · have h1 : insert_tweet db t = (db, some e) := by
        unfold insert_tweet
        rw [if_neg hin, hbody]
      have h2 : insert_tweet db t = (db, some e) := h1
      rw [h1]
      simp only
      rw [h2]
    · have h1 : insert_tweet db t = (db2, none) := by
        unfold insert_tweet
        rw [if_neg hin, hbody]
      rw [h1]
      simp only
      rw [hdup db2 (insertTweetBody_ok db t db2 hbody).1]

/-- C1 witness: the theorem applied to the store produced by one
successful run of a concrete record. -/
theorem C1_insert_tweet_idempotent_w :
    insert_tweet (insert_tweet DB.empty tPoint).1 tPoint =
      ((insert_tweet DB.empty tPoint).1, none) :=
  (C1_insert_tweet_idempotent (insert_tweet DB.empty tPoint).1 tPoint).1 (by decide)

/-! ## C2: per-record atomicity -/

/-- C2: all writes after the duplicate check happen in one transaction:
when an exception escapes `insert_tweet`, the store is exactly the
incoming store (full rollback), and when no exception escapes, the final
store is either the untouched store (duplicate skip) or exactly the
store produced by the whole transactional body. -/
theorem C2_insert_tweet_atomic :
    ∀ (db : DB) (t : Tweet),
      (∀ e, (insert_tweet db t).2 = some e → (insert_tweet db t).1 = db) ∧
      ((insert_tweet db t).2 = none →
        insert_tweet db t = (db, none) ∨
        insertTweetBody db t = Except.ok (insert_tweet db t).1) := by
  intro db t
  unfold insert_tweet
  by_cases hin : db.tweets.any (fun r => r.id_tweets = t.id)
  · rw [if_pos hin]
    exact ⟨fun e he => Option.noConfusion he, fun _ => Or.inl rfl⟩
  · rw [if_neg hin]
    rcases hbody : insertTweetBody db t with e | db2
    · exact ⟨fun e2 he2 => rfl, fun hnone => Option.noConfusion hnone⟩
    · exact ⟨fun e2 he2 => Option.noConfusion he2, fun _ => Or.inr rfl⟩

/-- C2 witness: the theorem applied to a record whose geometry derivation
raises, showing the failed record leaves the store untouched. -/
theorem C2_insert_tweet_atomic_w :
    (insert_tweet DB.empty tGeoNull).2 = some PyErr.typeError ∧
    (insert_tweet DB.empty tGeoNull).1 = DB.empty :=
  ⟨rfl, (C2_insert_tweet_atomic DB.empty tGeoNull).1 PyErr.typeError rfl⟩

/-! ## C8: the reply-target foreign key -/

/-- C8: for a record with a non-null `in_reply_to_user_id`, a successful
transactional body leaves a user row with that id in the users table, and
when no such user row exists at the reply step, the step inserts exactly
the unhydrated placeholder row (only the id, all other columns null)
before the tweet row is inserted. -/
theorem C8_reply_target_placeholder :
    ∀ (t : Tweet) (uid : Nat), t.in_reply_to_user_id = some uid →
      (∀ db db' : DB, insertTweetBody db t = Except.ok db' →
        ∃ r ∈ db'.users, r.id_users = uid) ∧
      (∀ db0 : DB, (∀ r ∈ db0.users, r.id_users ≠ uid) →
        ensureReplyUser t db0 =
          Except.ok { db0 with users := db0.users ++ [{ id_users := uid }] }) := by
  intro t uid huid
  constructor
  · intro db db' h
    exact (insertTweetBody_ok db t db' h).2.1 uid huid
  · intro db0 h
    exact ensureReplyUser_fresh t db0 uid huid h

/-- C8 witness: the theorem applied to a concrete reply record processed
against the empty store. -/
theorem C8_reply_target_placeholder_w :
    (∃ r ∈ (insert_tweet DB.empty tReply).1.users, r.id_users = 9) ∧
    ensureReplyUser tReply DB.empty =
      Except.ok { DB.empty with users := DB.empty.users ++ [{ id_users := 9 }] } :=
  ⟨(C8_reply_target_placeholder tReply 9 rfl).1 DB.empty
      (insert_tweet DB.empty tReply).1 rfl,
   (C8_reply_target_placeholder tReply 9 rfl).2 DB.empty (by decide)⟩

/-! ## C9: mention handling -/

/-- A record mentioning user 7 (screen name "b", name "B"). -/
def tMention : Tweet :=
  { id := 10, user := { id := 5 }, geo := some { coordinates := [10, 20] },
    entities := { urls := [],
                  user_mentions := [{ id := 7, screen_name := ['b'], name := ['B'] }],
                  hashtags := [], symbols := [] } }

theorem insertUserIgnore_fresh (row : UserRow) (db : DB)
    (h : ∀ r ∈ db.users, r.id_users ≠ row.id_users) :
    (insertUserIgnore row db).users = db.users ++ [row] := by
  have hany : db.users.any (fun r => r.id_users = row.id_users) = false := by
    simp only [List.any_eq_false]
    intro r hrm
    simpa using h r hrm
  unfold insertUserIgnore
  rw [if_neg (by simp [hany])]

/-- C9 counterexample: the user row inserted for a mention is not a row
"containing only the identifier": for a concrete mentioned user the
stored row carries the mention's screen name and name, and the id-only
row is not in the table. -/
theorem C9_mention_placeholder_cex :
    mentionUserRow { id := 7, screen_name := ['b'], name := ['B'] }
        ∈ (insert_tweet DB.empty tMention).1.users ∧
    (mentionUserRow { id := 7, screen_name := ['b'], name := ['B'] }).screen_name ≠ none ∧
    ({ id_users := 7 } : UserRow) ∉ (insert_tweet DB.empty tMention).1.users := by
  decide

/-- C9 amended: for each mention entity of a successfully processed
record, a conflict-safe insert leaves a user row with the mention's id
and a tweet-mention join row linking the tweet id to the mentioned user
id; when the mentioned id is fresh, the inserted placeholder row carries
the identifier, screen name and name (unsanitized), with every other
column null or defaulted. -/
theorem C9_mention_rows :
    (∀ (db : DB) (t : Tweet) (db' : DB) (m : MentionEntity),
      m ∈ tweetMentionEntities t → insertTweetBody db t = Except.ok db' →
      (∃ r ∈ db'.users, r.id_users = m.id) ∧ (t.id, m.id) ∈ db'.tweet_mentions) ∧
    (∀ (m : MentionEntity) (db0 : DB), (∀ r ∈ db0.users, r.id_users ≠ m.id) →
      (insertUserIgnore (mentionUserRow m) db0).users = db0.users ++ [mentionUserRow m]) ∧
    (∀ m : MentionEntity,
      (mentionUserRow m).id_users = m.id ∧
      (mentionUserRow m).screen_name = some m.screen_name ∧
      (mentionUserRow m).name = some m.name ∧
      (mentionUserRow m).created_at = none ∧ (mentionUserRow m).location = none ∧
      (mentionUserRow m).description = none ∧ (mentionUserRow m).id_urls = none) := by
  refine ⟨?_, ?_, ?_⟩
  · intro db t db' m hm h
    exact (insertTweetBody_ok db t db' h).2.2 m hm
  · intro m db0 h
    exact insertUserIgnore_fresh (mentionUserRow m) db0 h
  · intro m
    exact ⟨rfl, rfl, rfl, rfl, rfl, rfl, rfl⟩

/-- C9 witness: the amended theorem applied to a concrete mention record
processed against the empty store. -/
theorem C9_mention_rows_w :
    ((∃ r ∈ (insert_tweet DB.empty tMention).1.users, r.id_users = 7) ∧
      (10, 7) ∈ (insert_tweet DB.empty tMention).1.tweet_mentions) ∧
    (insertUserIgnore (mentionUserRow { id := 7, screen_name := ['b'], name := ['B'] })
        DB.empty).users = DB.empty.users ++
          [mentionUserRow { id := 7, screen_name := ['b'], name := ['B'] }] :=
  ⟨C9_mention_rows.1 DB.empty tMention (insert_tweet DB.empty tMention).1
      { id := 7, screen_name := ['b'], name := ['B'] } (by decide) rfl,
   C9_mention_rows.2.1 { id := 7, screen_name := ['b'], name := ['B'] }
      DB.empty (by decide)⟩

/-! ## C5: null-byte sanitization coverage -/

/-- A nullable text value contains no null character. -/
def optNoNull (o : Option PStr) : Prop :=
  ∀ s, o = some s → Char.ofNat 0 ∉ s

theorem optNoNull_remove_nulls (o : Option PStr) : optNoNull (remove_nulls o) := by
  intro s h
  cases o with
  | none => cases h
  | some v =>
    simp only [remove_nulls, Option.some.injEq] at h
    exact h ▸ replaceCharEmpty_not_mem _ _

/-- Modelled from the spec: the target store cannot represent the null
character in text values (the schema and store are not under `src/`), so
an insert that binds a non-null text parameter containing the null
character raises instead of storing the row. -/
def storeRejects : Option PStr → Prop
  | none => False
  | some s => Char.ofNat 0 ∈ s

instance (o : Option PStr) : Decidable (storeRejects o) := by
  unfold storeRejects
  cases o <;> infer_instance

/-- The mention entity of `tNullStrings`: screen name and name contain
the null character. -/
def mNull : MentionEntity :=
  { id := 7, screen_name := 's' :: Char.ofNat 0 :: ['n'],
    name := 'n' :: Char.ofNat 0 :: ['m'] }

/-- C5 counterexample: not every free-text field is passed through the
sanitizer before storage.  At a concrete record whose place full name and
mention screen name and name contain the null character, the parameter
record bound for the tweets insert carries the place name raw (it still
contains the null character, which no output of the sanitizer does), and
the mention user insert binds the screen name and name raw — values the
store rejects, so the record aborts rather than being stored sanitized.
(The geometry arguments are the ones `deriveGeo` yields at this record.) -/
theorem C5_sanitization_cex :
    deriveGeo tNullStrings = Except.ok (some ("POINT".toList),
      some ((toString (10 : Int)).toList ++ ' ' :: (toString (20 : Int)).toList)) ∧
    (tweetRow tNullStrings (some ("POINT".toList))
        (some ((toString (10 : Int)).toList ++ ' ' :: (toString (20 : Int)).toList))).place_name
      = some ('L' :: Char.ofNat 0 :: "C, TX".toList) ∧
    storeRejects (tweetRow tNullStrings (some ("POINT".toList))
      (some ((toString (10 : Int)).toList ++ ' ' :: (toString (20 : Int)).toList))).place_name ∧
    (mentionUserRow mNull).screen_name = some ('s' :: Char.ofNat 0 :: ['n']) ∧
    storeRejects (mentionUserRow mNull).screen_name ∧
    storeRejects (mentionUserRow mNull).name := by
  refine ⟨rfl, rfl, ?_, rfl, ?_, ?_⟩ <;> decide

/-- C5 amended: the sanitizer is applied to the author's screen name,
name, location and description, to the tweet text and source, and to tag
text — those bound values never contain the null character — but the
place name and the mention screen names and names are bound to the insert
statements unsanitized, so a record carrying a null character in those
fields makes the store reject the insert and the record aborts, instead
of being stored sanitized. -/
theorem C5_sanitization_amended :
    ∀ (t : Tweet) (uid : Option Nat) (gs gc : Option PStr) (tag : PStr) (m : MentionEntity),
      optNoNull (authorRow t uid).screen_name ∧
      optNoNull (authorRow t uid).name ∧
      optNoNull (authorRow t uid).location ∧
      optNoNull (authorRow t uid).description ∧
      optNoNull (tweetRow t gs gc).text ∧
      optNoNull (tweetRow t gs gc).source ∧
      optNoNull (remove_nulls (some tag)) ∧
      (tweetRow t gs gc).place_name = derivePlaceName t ∧
      (mentionUserRow m).screen_name = some m.screen_name ∧
      (mentionUserRow m).name = some m.name ∧
      (∀ p, t.place = some p → Char.ofNat 0 ∈ p.full_name →
        storeRejects (tweetRow t gs gc).place_name) ∧
      (Char.ofNat 0 ∈ m.screen_name → storeRejects (mentionUserRow m).screen_name) ∧
      (Char.ofNat 0 ∈ m.name → storeRejects (mentionUserRow m).name) := by
  intro t uid gs gc tag m
  refine ⟨optNoNull_remove_nulls _, optNoNull_remove_nulls _, optNoNull_remove_nulls _,
    optNoNull_remove_nulls _, ?_, ?_, optNoNull_remove_nulls _, ?_, rfl, rfl, ?_, ?_, ?_⟩
  · simp only [tweetRow]
    exact optNoNull_remove_nulls _
  · simp only [tweetRow]
    exact optNoNull_remove_nulls _
  · simp only [tweetRow]
  · intro p hp hmem
    simp only [tweetRow, derivePlaceName, hp]
    exact hmem
  · intro hmem
    exact hmem
  · intro hmem
    exact hmem

/-- C5 witness: the amended theorem applied at a concrete tag value and
at the concrete null-bearing record and mention. -/
theorem C5_sanitization_amended_w :
    Char.ofNat 0 ∉ (['h'] : PStr) ∧
    storeRejects (tweetRow tNullStrings none none).place_name ∧
    storeRejects (mentionUserRow mNull).screen_name := by
  have h := C5_sanitization_amended tNullStrings none none none ['h'] mNull
  refine ⟨h.2.2.2.2.2.2.1 ['h'] rfl, ?_, ?_⟩
  · exact h.2.2.2.2.2.2.2.2.2.2.1
      { bounding_box := none, country_code := "US".toList,
        full_name := 'L' :: Char.ofNat 0 :: "C, TX".toList } rfl (by decide)
  · exact h.2.2.2.2.2.2.2.2.2.2.2.1 (by decide)

end LoadTweets
